import Mathlib

/-!
Shallow embedding of the AMOS swarm core (crates amos-swarm, amos-agents,
amos-core) and a verification of the specification's claims against it.

Conventions of the embedding:
* `Uuid` values are modelled as `Nat` (they are only compared for equality);
  `Uuid::nil()` is `0`.
* Rust `HashMap`/`HashSet` values are modelled as association lists / lists
  in some iteration order; the source never relies on a particular hash
  order for the properties checked here.
* Rust `f64` constants that the code merely stores (confidences, agreement
  fractions) are modelled as `Rat`; the core never computes with them.
* Fallible Rust functions returning `Result` are modelled with `Except`.
* `usize` arithmetic is `Nat`, with the one wrapping subtraction in
  `select_agents` modelled explicitly modulo `2 ^ 64` (release-mode
  semantics; debug builds panic there, see the underflow theorems).
-/

namespace Amos

/-- usize modulus. -/
def USIZE : Nat := 2 ^ 64

/-- Release-mode wrapping computation of `c - 1` on a `usize`
(`0 - 1` wraps to `USIZE - 1`; a debug build panics instead). -/
def usizeSub1 (c : Nat) : Nat := (c + (USIZE - 1)) % USIZE

/-- Insert into a `HashSet` modelled as a duplicate-free list. -/
def listInsert (l : List Nat) (x : Nat) : List Nat :=
  if x ∈ l then l else l ++ [x]

/-- `Uuid::nil()`. -/
def nilUuid : Nat := 0

/-- `SwarmTopology` (src/crates/amos-swarm/src/topology.rs, lines 8-27). -/
inductive SwarmTopology : Type
  | Mesh (max_connections : Nat)
  | Hierarchical (levels : Nat) (agents_per_level : Nat)
  | Ring
  | Star (max_satellites : Nat)
  deriving DecidableEq

/-- `AgentPlacement` (topology.rs, lines 158-175). -/
inductive AgentPlacement : Type
  | Mesh (connections : List Nat)
  | Hierarchical (level : Nat) (parent : Option Nat) (children : List Nat)
  | Ring (prev next : Option Nat)
  | Star (is_hub : Bool) (connections : List Nat)
  deriving DecidableEq

/-- The hierarchical level of a placement, if it is hierarchical. -/
def hierLevelOf : AgentPlacement → Option Nat
  | .Hierarchical lvl _ _ => some lvl
  | _ => none

/-- Number of existing placements sitting at hierarchical level `lvl`
(the `level_counts` vector of `calculate_placement`, topology.rs lines 45-53,
queried at an index `lvl < levels`). -/
def levelCount (existing : List (Nat × AgentPlacement)) (lvl : Nat) : Nat :=
  (existing.filter (fun p => hierLevelOf p.2 = some lvl)).length

/-- The target level chosen by hierarchical `calculate_placement`
(topology.rs lines 56-61): the first level index below `levels` whose
count is below `agents_per_level`, defaulting to `0`. -/
def targetLevel (levels apl : Nat) (existing : List (Nat × AgentPlacement)) : Nat :=
  ((List.range levels).find? (fun l => levelCount existing l < apl)).getD 0

/-- The parent chosen by hierarchical `calculate_placement`
(topology.rs lines 64-80): for a positive target level, the first existing
agent whose placement sits at `target - 1`. -/
def findParent (target : Nat) (existing : List (Nat × AgentPlacement)) : Option Nat :=
  if 0 < target then
    (existing.find? (fun p => hierLevelOf p.2 = some (target - 1))).map (·.1)
  else none

/-- `SwarmTopology::calculate_placement` (topology.rs, lines 31-134). -/
def calculatePlacement (topo : SwarmTopology) (existing : List (Nat × AgentPlacement)) :
    AgentPlacement :=
  match topo with
  | .Mesh _ => .Mesh (existing.map (·.1))
  | .Hierarchical levels apl =>
      let t := targetLevel levels apl existing
      .Hierarchical t (findParent t existing) []
  | .Ring =>
      match existing.map (·.1) with
      | [] => .Ring none none
      | [a] => .Ring (some a) none
      | a :: b :: _ => .Ring (some a) (some b)
  | .Star _ =>
      match (existing.find? (fun p =>
          match p.2 with
          | .Star true _ => true
          | _ => false)).map (·.1) with
      | some hub => .Star false [hub]
      | none => .Star true []

/-- `SwarmTopology::can_add_agent` (topology.rs, lines 137-153). -/
def canAddAgent : SwarmTopology → Nat → Bool
  | .Mesh m, c => c < m * m
  | .Hierarchical l a, c => c < l * a
  | .Ring, c => c < 1000
  | .Star m, c => c ≤ m

/-- `AgentPlacement::on_agent_joined` (topology.rs, lines 205-230). -/
def onAgentJoined : AgentPlacement → Nat → AgentPlacement → AgentPlacement
  | .Mesh conns, newAgent, .Mesh _ => .Mesh (listInsert conns newAgent)
  | .Hierarchical lvl par children, newAgent, .Hierarchical _ (some p) _ =>
      if p = nilUuid then .Hierarchical lvl par (listInsert children newAgent)
      else .Hierarchical lvl par children
  | .Ring pr nxt, newAgent, .Ring (some _) _ =>
      if nxt.isNone then .Ring pr (some newAgent) else .Ring pr nxt
  | .Star hb cs, newAgent, .Star _ _ =>
      if hb then .Star hb (listInsert cs newAgent) else .Star hb cs
  | p, _, _ => p

/-- Orchestrator state used by `on_agent_joined` (orchestrator.rs, lines
83-95): compute the new agent's placement, update every existing placement,
insert the new one. -/
def joinAgent (topo : SwarmTopology) (placements : List (Nat × AgentPlacement))
    (agentId : Nat) : List (Nat × AgentPlacement) :=
  let p := calculatePlacement topo placements
  (placements.map (fun q => (q.1, onAgentJoined q.2 agentId p))) ++ [(agentId, p)]

/-- The inline capacity bound used by `AmosSwarm::spawn_agent`
(src/crates/amos-swarm/src/lib.rs, lines 62-67). -/
def spawnCapacity : SwarmTopology → Nat
  | .Mesh m => m * 10
  | .Hierarchical l a => l * a
  | .Ring => 100
  | .Star m => m + 1

/-- Swarm membership state (lib.rs `AmosSwarm`): the member ids together with
the orchestrator's placement map. -/
structure AmosSwarm where
  name : String
  topology : SwarmTopology
  agents : List Nat
  placements : List (Nat × AgentPlacement)
  deriving DecidableEq

/-- `AmosSwarm::spawn_agent` (lib.rs, lines 54-79): reject when the member
count has reached the inline capacity bound, otherwise register the agent and
notify the orchestrator (which recomputes placements). -/
def spawnAgent (s : AmosSwarm) (agentId : Nat) : Except String AmosSwarm :=
  if spawnCapacity s.topology ≤ s.agents.length then
    .error "Swarm at maximum capacity"
  else
    .ok { s with
      agents := listInsert s.agents agentId,
      placements := joinAgent s.topology s.placements agentId }

/-- `TaskRequirements` (src/crates/amos-swarm/src/task.rs, lines 52-58);
the timeout is carried in seconds. -/
structure TaskRequirements where
  min_agents : Nat
  max_agents : Option Nat
  required_capabilities : List String
  timeout_secs : Option Nat
  max_iterations : Option Nat
  deriving DecidableEq

/-- `Task` (task.rs, lines 8-15); input and priority carried abstractly. -/
structure Task where
  id : Nat
  description : String
  requirements : TaskRequirements
  deriving DecidableEq

/-- `TaskStrategy` (task.rs, lines 92-110). -/
inductive TaskStrategy : Type
  | Parallel
  | Sequential
  | Consensus (min_agreement : Rat)
  | Distributed (max_subtasks : Nat)
  | Competitive
  | Adaptive
  deriving DecidableEq

/-- `TaskStatus` (task.rs, lines 124-131). -/
inductive TaskStatus : Type
  | Pending
  | Running (progress : Rat)
  | Completed
  | Failed (error : String)
  | Cancelled
  | Timeout
  deriving DecidableEq

/-- `WorkItem` (task.rs, lines 184-188), timestamp omitted. -/
structure WorkItem where
  description : String
  deriving DecidableEq

/-- `AgentContribution` (task.rs, lines 174-180). -/
structure AgentContribution where
  agent_id : Nat
  agent_type : String
  work_items : List WorkItem
  confidence : Rat
  neural_impact : Rat
  deriving DecidableEq

/-- `TaskResult` (task.rs, lines 114-120), metadata timestamps omitted. -/
structure TaskResult where
  task_id : Nat
  status : TaskStatus
  agent_contributions : List (Nat × AgentContribution)
  deriving DecidableEq

/-- An entry of the orchestrator's agent pool (`HashMap<Uuid, Arc<dyn
CognitiveAgent>>`), keeping the data the orchestrator reads: id and name. -/
structure Agent where
  id : Nat
  name : String
  deriving DecidableEq

/-- The capability filter of `select_agents` (orchestrator.rs, lines
182-189); the source filter is a placeholder accepting every agent. -/
def capableAgents (pool : List Agent) : List Agent :=
  pool.filter (fun _ => true)

/-- Look up an agent's placement (`placements.get(id)`). -/
def lookupPlacement (placements : List (Nat × AgentPlacement)) (id : Nat) :
    Option AgentPlacement :=
  (placements.find? (fun q => q.1 = id)).map (·.2)

/-- The ring walk of `order_by_topology` (orchestrator.rs, lines 258-279):
follow `next` pointers from the start while the collected list is shorter
than the agent count, stopping at a missing or already-collected neighbor.
Fuel bounds the loop exactly as the length test does in the source. -/
def ringWalk (placements : List (Nat × AgentPlacement)) (total : Nat) :
    Nat → List Nat → Nat → List Nat
  | 0, ordered, _ => ordered
  | fuel + 1, ordered, current =>
      if ordered.length < total then
        match lookupPlacement placements current with
        | some (.Ring _ (some nxt)) =>
            if nxt ∈ ordered then ordered
            else ringWalk placements total fuel (ordered ++ [nxt]) nxt
        | _ => ordered
      else ordered

/-- `SwarmOrchestrator::order_by_topology` (orchestrator.rs, lines 232-287). -/
def orderByTopology (topo : SwarmTopology) (placements : List (Nat × AgentPlacement))
    (agents : List Nat) : List Nat :=
  match topo with
  | .Hierarchical _ _ =>
      let byLevel := agents.filterMap (fun id =>
        match lookupPlacement placements id with
        | some (.Hierarchical lvl _ _) => some (lvl, id)
        | _ => none)
      (byLevel.mergeSort (fun a b => a.1 ≤ b.1)).map (·.2)
  | .Ring =>
      match agents with
      | [] => []
      | start :: _ => ringWalk placements agents.length (agents.length + 1) [start] start
  | _ => agents

/-- `SwarmOrchestrator::select_agents` (orchestrator.rs, lines 173-229).
The consensus branch models the source's `count - 1` on `usize` with
release-mode wrapping (`usizeSub1`). -/
def selectAgents (topo : SwarmTopology) (placements : List (Nat × AgentPlacement))
    (task : Task) (strat : TaskStrategy) (pool : List Agent) : List Nat :=
  let capable := capableAgents pool
  match strat with
  | .Parallel | .Competitive =>
      (capable.take (task.requirements.max_agents.getD capable.length)).map (·.id)
  | .Sequential =>
      orderByTopology topo placements (capable.map (·.id))
  | .Consensus _ =>
      let count := min (task.requirements.max_agents.getD 5) capable.length
      let count := if count % 2 = 0 then usizeSub1 count else count
      (capable.take count).map (·.id)
  | _ =>
      (capable.take (task.requirements.max_agents.getD capable.length)).map (·.id)

/-- The mathematical (pre-wrap) value of the consensus selection count
computed at orchestrator.rs lines 209-210: `count - 1` on a `usize` when
`count` is even, where `count = min(max_agents.unwrap_or(5), pool size)`.
A negative value is exactly a `usize` underflow (debug-build panic). -/
def consensusCountInt (max_agents : Option Nat) (poolLen : Nat) : Int :=
  let count := min (max_agents.getD 5) poolLen
  if count % 2 = 0 then (count : Int) - 1 else (count : Int)

/-- Look up an agent in the pool (`agents.get(agent_id)`). -/
def lookupAgent (pool : List Agent) (id : Nat) : Option Agent :=
  pool.find? (fun a => a.id = id)

/-- `SwarmOrchestrator::execute_parallel` (orchestrator.rs, lines 290-374):
one simulated work item per selected agent found in the pool, a fixed
confidence of 0.85, and the status is always `Completed`. -/
def executeParallel (task : Task) (selected : List Nat) (pool : List Agent) :
    TaskResult :=
  let contribs := selected.filterMap (fun id =>
    (lookupAgent pool id).map (fun a =>
      ((id, { agent_id := id, agent_type := a.name,
              work_items := [{ description := "Processed by " ++ a.name }],
              confidence := (85 : Rat) / 100,
              neural_impact := (1 : Rat) / 10 }) : Nat × AgentContribution)))
  { task_id := task.id, status := .Completed, agent_contributions := contribs }

/-- `SwarmOrchestrator::execute_sequential` (orchestrator.rs, lines 377-431):
threads results through the selected agents; status is always `Completed`. -/
def executeSequential (task : Task) (selected : List Nat) (pool : List Agent) :
    TaskResult :=
  let contribs := selected.filterMap (fun id =>
    (lookupAgent pool id).map (fun a =>
      ((id, { agent_id := id, agent_type := a.name,
              work_items := [{ description := "Sequential processing by " ++ a.name }],
              confidence := (9 : Rat) / 10,
              neural_impact := (15 : Rat) / 100 }) : Nat × AgentContribution)))
  { task_id := task.id, status := .Completed, agent_contributions := contribs }

/-- `SwarmOrchestrator::execute_consensus` (orchestrator.rs, lines 434-443):
the body ignores `min_agreement` entirely and delegates to
`execute_parallel`. -/
def executeConsensus (task : Task) (selected : List Nat) (pool : List Agent)
    (_min_agreement : Rat) : TaskResult :=
  executeParallel task selected pool

/-- `SwarmOrchestrator::execute_distributed` (orchestrator.rs, lines 446-455):
delegates to `execute_parallel`. -/
def executeDistributed (task : Task) (selected : List Nat) (pool : List Agent)
    (_max_subtasks : Nat) : TaskResult :=
  executeParallel task selected pool

/-- `SwarmOrchestrator::execute_competitive` (orchestrator.rs, lines 458-466):
delegates to `execute_parallel`. -/
def executeCompetitive (task : Task) (selected : List Nat) (pool : List Agent) :
    TaskResult :=
  executeParallel task selected pool

/-- `SwarmOrchestrator::execute_adaptive` (orchestrator.rs, lines 469-477):
delegates to `execute_parallel`. -/
def executeAdaptive (task : Task) (selected : List Nat) (pool : List Agent) :
    TaskResult :=
  executeParallel task selected pool

/-- The error message built at orchestrator.rs lines 123-127. -/
def insufficientMsg (required available : Nat) : String :=
  "Not enough agents available. Required: " ++ toString required ++
    ", Available: " ++ toString available

/-- `SwarmOrchestrator::execute_task` (orchestrator.rs, lines 111-170):
select agents, fail with the insufficient-agents error when fewer than
`min_agents` were selected, otherwise dispatch on the strategy. -/
def executeTask (topo : SwarmTopology) (placements : List (Nat × AgentPlacement))
    (task : Task) (strat : TaskStrategy) (pool : List Agent) :
    Except String TaskResult :=
  let selected := selectAgents topo placements task strat pool
  if selected.length < task.requirements.min_agents then
    .error (insufficientMsg task.requirements.min_agents selected.length)
  else
    match strat with
    | .Parallel => .ok (executeParallel task selected pool)
    | .Sequential => .ok (executeSequential task selected pool)
    | .Consensus ma => .ok (executeConsensus task selected pool ma)
    | .Distributed ms => .ok (executeDistributed task selected pool ms)
    | .Competitive => .ok (executeCompetitive task selected pool)
    | .Adaptive => .ok (executeAdaptive task selected pool)

/-- `AgentState` (src/crates/amos-agents/src/agent.rs, lines 10-18). -/
inductive AgentState : Type
  | Uninitialized
  | Initializing
  | Active
  | Processing
  | Suspended
  | Terminating
  | Terminated
  deriving DecidableEq

/-- The part of `BaseAgent` (agent.rs, lines 47-58) the lifecycle claims
read: identity, name and current state. -/
structure BaseAgent where
  id : Nat
  name : String
  state : AgentState
  deriving DecidableEq

/-- `BaseAgent::transition_state` (agent.rs, lines 79-94): overwrites the
state unconditionally (no transition-graph check), refreshes the activity
timestamp, and always returns `Ok`. -/
def transitionState (a : BaseAgent) (s : AgentState) : BaseAgent :=
  { a with state := s }

/-- `TrafficSeer::initialize` state effect (traffic_seer.rs, lines 102-112):
`Initializing` then `Active`. -/
def seerInit (a : BaseAgent) : BaseAgent :=
  transitionState (transitionState a .Initializing) .Active

/-- `TrafficSeer::activate` (traffic_seer.rs, lines 114-118). -/
def seerActivate (a : BaseAgent) : BaseAgent :=
  transitionState a .Active

/-- `TrafficSeer::process` state effect (traffic_seer.rs, lines 120-140):
`Processing` then back to `Active`. -/
def seerProcess (a : BaseAgent) : BaseAgent :=
  transitionState (transitionState a .Processing) .Active

/-- `TrafficSeer::suspend` (traffic_seer.rs, lines 142-146). -/
def seerSuspend (a : BaseAgent) : BaseAgent :=
  transitionState a .Suspended

/-- `TrafficSeer::terminate` state effect (traffic_seer.rs, lines 148-157):
`Terminating` then `Terminated`. -/
def seerTerminate (a : BaseAgent) : BaseAgent :=
  transitionState (transitionState a .Terminating) .Terminated

/-- `SystemEvent` (src/crates/amos-core/src/event_bus.rs, lines 10-18). -/
inductive SystemEvent : Type
  | NeuralFired (node_id : Nat)
  | PathwayStrengthened (pathway_id : Nat) (new_strength : Rat)
  | HormonalBurst (hormone_type : String) (intensity : Rat)
  | ThreatDetected (threat_id : Nat) (level : String)
  | AgentActivated (agent_id : Nat) (agent_type : String)
  | MemoryStored (memory_id : Nat) (content_size : Nat)
  | SystemShutdown
  deriving DecidableEq

/-- `EventBus` state (event_bus.rs, lines 29-33): the subscribed handler ids
in subscription order (every handler registers under the single
`TypeId::of::<SystemEvent>()` key) and the pending ingestion queue of the
unbounded channel, in publish order. -/
structure BusState where
  handlers : List Nat
  queue : List SystemEvent
  deriving DecidableEq

/-- `EventBus::subscribe` (event_bus.rs, lines 46-58): append the handler
under the event-type key. -/
def busSubscribe (b : BusState) (h : Nat) : BusState :=
  { b with handlers := b.handlers ++ [h] }

/-- `EventBus::unsubscribe` (event_bus.rs, lines 60-66): retain the handlers
with a different id. -/
def busUnsubscribe (b : BusState) (h : Nat) : BusState :=
  { b with handlers := b.handlers.filter (fun x => x ≠ h) }

/-- `EventBus::publish` (event_bus.rs, lines 68-70): enqueue only; handlers
are not consulted here. -/
def busPublish (b : BusState) (e : SystemEvent) : BusState :=
  { b with queue := b.queue ++ [e] }

/-- One iteration of the dispatch loop in `EventBus::start_processing`
(event_bus.rs, lines 72-99): dequeue the next event and deliver it to every
handler subscribed at this (dequeue) moment. Returns the new state and the
deliveries `(handler, event)` made by this iteration; after delivering
`SystemShutdown` the source loop exits. -/
def dispatchStep (b : BusState) : BusState × List (Nat × SystemEvent) :=
  match b.queue with
  | [] => (b, [])
  | e :: rest => ({ b with queue := rest }, b.handlers.map (fun h => (h, e)))

/-- Operations of a bus history, for stating delivery claims about the order
of subscribes, publishes and dispatch-loop iterations. -/
inductive BusOp : Type
  | Subscribe (h : Nat)
  | Unsubscribe (h : Nat)
  | Publish (e : SystemEvent)
  | Dispatch
  deriving DecidableEq

/-- Apply one bus operation. -/
def busStep (b : BusState) : BusOp → BusState × List (Nat × SystemEvent)
  | .Subscribe h => (busSubscribe b h, [])
  | .Unsubscribe h => (busUnsubscribe b h, [])
  | .Publish e => (busPublish b e, [])
  | .Dispatch => dispatchStep b

/-- Run a sequence of bus operations, collecting all deliveries. -/
def runBus (b : BusState) : List BusOp → BusState × List (Nat × SystemEvent)
  | [] => (b, [])
  | op :: rest =>
      let s := busStep b op
      let s2 := runBus s.1 rest
      (s2.1, s.2 ++ s2.2)

/-- A registry entry as read by `process_all_agents`
(src/crates/amos-agents/src/registry.rs): the agent's id, its current state,
and whether its (domain-specific, excluded) `process` body succeeds. -/
structure RegAgent where
  id : Nat
  state : AgentState
  processOk : Bool
  deriving DecidableEq

/-- The error message used for a failed `process` call in the model. -/
def processErrMsg : String := "process failed"

/-- The loop of `AgentRegistry::process_all_agents` (registry.rs, lines
93-100) over the snapshotted ids: look each id up, call `process` only on
`Active` agents, and propagate the first error with `?` — which returns
immediately, skipping every remaining id. Also returns the ids on which
`process` was invoked, in order. -/
def processAllLoop (reg : List RegAgent) : List Nat → List Nat →
    List Nat × Option String
  | [], invoked => (invoked, none)
  | i :: rest, invoked =>
      match reg.find? (fun a => a.id = i) with
      | some a =>
          if a.state = .Active then
            if a.processOk then processAllLoop reg rest (invoked ++ [i])
            else (invoked ++ [i], some processErrMsg)
          else processAllLoop reg rest invoked
      | none => processAllLoop reg rest invoked

/-- `AgentRegistry::process_all_agents` (registry.rs, lines 87-103):
snapshot the current ids, then run the loop. -/
def processAllAgents (reg : List RegAgent) : List Nat × Option String :=
  processAllLoop reg (reg.map (·.id)) []

/-- `MessageContent` (src/crates/amos-swarm/src/coordination.rs, lines
38-71), with payloads carried as scalars/strings. -/
inductive MessageContent : Type
  | TaskCoordination (task_id : Nat) (action : String)
  | Knowledge (topic : String) (data : String)
  | Request (request_type : String) (details : String)
  | Response (request_id : Nat) (result : String)
  | NeuralSync (pathways : List (Nat × Nat × Rat))
  | Custom (data : String)
  deriving DecidableEq

/-- `SystemMessage` (coordination.rs, lines 96-103). -/
inductive SystemMessage : Type
  | AgentJoined (id : Nat)
  | AgentLeft (id : Nat)
  | TopologyChange
  | EmergencyStop
  | HealthCheck
  | ConfigUpdate (data : String)
  deriving DecidableEq

/-- `CoordinationMessage` (coordination.rs, lines 10-35). -/
inductive CoordMessage : Type
  | Direct (sender recipient : Nat) (content : MessageContent)
  | Broadcast (sender : Nat) (content : MessageContent)
  | Multicast (sender : Nat) (recipients : List Nat) (content : MessageContent)
  | System (content : SystemMessage)
  deriving DecidableEq

/-- `MessageBus` state (coordination.rs, lines 127-132): the registered
direct channels, whether the broadcast channel currently has receivers
(`tokio::sync::broadcast` send fails when it has none), the history and its
bound (`MessageBus::new` fixes `max_history` to 1000). -/
structure MessageBus where
  channels : List Nat
  hasBroadcastReceivers : Bool
  history : List CoordMessage
  max_history : Nat
  deriving DecidableEq

/-- The history append at the top of `MessageBus::send` (coordination.rs,
lines 160-166): push, then drop the oldest entry when over `max_history`. -/
def pushHistory (bus : MessageBus) (m : CoordMessage) : MessageBus :=
  let h := bus.history ++ [m]
  { bus with history := if bus.max_history < h.length then h.drop 1 else h }

/-- `MessageBus::send` (coordination.rs, lines 159-200): record into history
first, then route; a `Direct` message to an unregistered recipient is a
not-found error, `Multicast` is best-effort, `Broadcast`/`System` fail only
when the broadcast channel has no receivers. -/
def sendMsg (bus : MessageBus) (m : CoordMessage) : MessageBus × Except String Unit :=
  let bus := pushHistory bus m
  match m with
  | .Direct _ recipient _ =>
      if recipient ∈ bus.channels then (bus, .ok ())
      else (bus, .error ("Agent " ++ toString recipient ++ " not found"))
  | .Broadcast _ _ =>
      if bus.hasBroadcastReceivers then (bus, .ok ())
      else (bus, .error "Failed to broadcast message")
  | .Multicast _ _ _ => (bus, .ok ())
  | .System _ =>
      if bus.hasBroadcastReceivers then (bus, .ok ())
      else (bus, .error "Failed to send system message")

/-- `MessageBus::get_history` (coordination.rs, lines 208-218):
most-recent-first, truncated to the limit (defaulting to everything). -/
def getHistory (bus : MessageBus) (limit : Option Nat) : List CoordMessage :=
  (bus.history.reverse).take (limit.getD bus.history.length)

/-! Concrete instances used in counterexamples and witnesses. -/

/-- Default task requirements (task.rs, lines 60-70) with an overridden
`min_agents` of 3 (Scenario B). -/
def reqScenarioB : TaskRequirements :=
  { min_agents := 3, max_agents := none, required_capabilities := [],
    timeout_secs := some 300, max_iterations := some 100 }

/-- The Scenario B task: `min_agents = 3`. -/
def taskScenarioB : Task :=
  { id := 7, description := "scenario B", requirements := reqScenarioB }

/-- A pool of two agents (Scenario B swarm). -/
def poolScenarioB : List Agent := [⟨1, "agent-one"⟩, ⟨2, "agent-two"⟩]

/-- A consensus task with default requirements (`min_agents = 1`). -/
def consensusTask : Task :=
  { id := 42, description := "consensus demo",
    requirements := { min_agents := 1, max_agents := none,
                      required_capabilities := [], timeout_secs := some 300,
                      max_iterations := some 100 } }

/-- A pool with a single agent for the consensus run. -/
def consensusPool : List Agent := [⟨1, "solo"⟩]

/-- A `Mesh {max_connections: 2}` swarm that already holds four members:
`can_add_agent` is already false here (4 ≥ 2 * 2). -/
def meshSwarm4 : AmosSwarm :=
  { name := "mesh", topology := .Mesh 2, agents := [10, 11, 12, 13],
    placements := [] }

/-- A `TrafficSeer` whose state is already `Terminated`. -/
def terminatedSeer : BaseAgent :=
  { id := 1, name := "TrafficSeer", state := .Terminated }

/-- A registry of two `Active` agents whose first `process` call fails. -/
def regDemo : List RegAgent :=
  [{ id := 1, state := .Active, processOk := false },
   { id := 2, state := .Active, processOk := true }]

/-- A fresh message bus: no registered channels, no broadcast receivers,
empty history, the `MessageBus::new` bound of 1000. -/
def demoBus : MessageBus :=
  { channels := [], hasBroadcastReceivers := false, history := [],
    max_history := 1000 }

/-- The direct message used in the C10 witness. -/
def demoMsg : CoordMessage := .Direct 1 2 (.Custom "ping")

/-- Scenario C evolution: spawn agents `1, …, n` in order into
`Hierarchical {levels: 3, agents_per_level: 4}` (placement map evolution of
`on_agent_joined`). -/
def scenarioCPlacements (n : Nat) : List (Nat × AgentPlacement) :=
  (List.range n).foldl (fun acc i => joinAgent (.Hierarchical 3 4) acc (i + 1)) []

/-! ## Theorems -/

/-- C1: for every task and strategy, `execute_task` runs the task only if the
number of selected agents is at least `task.requirements.min_agents`;
otherwise it returns the insufficient-agents error before any strategy
execution is dispatched, so no agent contribution is produced. -/
theorem C1_min_agents_gate (topo : SwarmTopology)
    (placements : List (Nat × AgentPlacement)) (task : Task)
    (strat : TaskStrategy) (pool : List Agent)
    (h : (selectAgents topo placements task strat pool).length <
      task.requirements.min_agents) :
    executeTask topo placements task strat pool =
      .error (insufficientMsg task.requirements.min_agents
        (selectAgents topo placements task strat pool).length) := by
  unfold executeTask
  simp [h]

/-- Witness for C1, Scenario B: a swarm of two agents and a task with
`min_agents = 3` yield the insufficient-agents error for the Parallel
strategy (2 selected) and for a Consensus strategy (1 selected after the
odd-count adjustment). -/
theorem C1_min_agents_gate_witness :
    (selectAgents (.Mesh 6) [] taskScenarioB .Parallel poolScenarioB).length <
      taskScenarioB.requirements.min_agents ∧
    executeTask (.Mesh 6) [] taskScenarioB .Parallel poolScenarioB =
      .error (insufficientMsg 3 2) ∧
    executeTask (.Mesh 6) [] taskScenarioB (.Consensus ((2 : Rat) / 3)) poolScenarioB =
      .error (insufficientMsg 3 1) := by
  refine ⟨by decide, ?_, ?_⟩
  · exact C1_min_agents_gate (.Mesh 6) [] taskScenarioB .Parallel poolScenarioB (by decide)
  · exact C1_min_agents_gate (.Mesh 6) [] taskScenarioB (.Consensus ((2 : Rat) / 3))
      poolScenarioB (by decide)

/-- C2 counterexample: for `Mesh {max_connections: 2}` with four members,
`can_add_agent` returns false, yet `spawn_agent` accepts a fifth agent —
so spawn rejection does not coincide with the `can_add_agent` check. -/
theorem C2_counterexample :
    canAddAgent (.Mesh 2) meshSwarm4.agents.length = false ∧
    (spawnAgent meshSwarm4 14).toOption.isSome = true ∧
    (spawnAgent meshSwarm4 14).toOption.map AmosSwarm.agents =
      some [10, 11, 12, 13, 14] := by
  decide

/-- C2 (amended): `spawn_agent` rejects a new agent exactly when the member
count has reached the swarm's own inline capacity bound (`spawnCapacity`:
Mesh `max_connections * 10`, Hierarchical `levels * agents_per_level`, Ring
`100`, Star `max_satellites + 1`), never consulting `can_add_agent`; the two
bounds coincide for Hierarchical and Star but not for Mesh or Ring. -/
theorem C2_spawn_uses_inline_capacity (s : AmosSwarm) (aid : Nat) :
    ((spawnAgent s aid).toOption.isSome ↔
      s.agents.length < spawnCapacity s.topology) ∧
    (∀ l a n, canAddAgent (.Hierarchical l a) n =
      decide (n < spawnCapacity (.Hierarchical l a))) ∧
    (∀ m n, canAddAgent (.Star m) n = decide (n < spawnCapacity (.Star m))) := by
  refine ⟨?_, ?_, ?_⟩
  · unfold spawnAgent
    split <;> (rename_i hcap; simp [Except.toOption]; omega)
  · intro l a n
    rfl
  · intro m n
    simp only [canAddAgent, spawnCapacity, decide_eq_decide]
    omega

/-- C4 counterexample: `activate` on a `Terminated` agent moves its state to
`Active` — `Terminated` is not absorbing and no transition graph is
enforced. -/
theorem C4_counterexample :
    terminatedSeer.state = .Terminated ∧
    (seerActivate terminatedSeer).state = .Active ∧
    (seerActivate terminatedSeer).state ≠ .Terminated := by
  decide

/-- C4 (amended): `transition_state` overwrites the state unconditionally,
so every lifecycle operation ends in its fixed target state regardless of
the starting state — in particular a `Terminated` agent is moved away from
`Terminated` by any non-terminate operation. -/
theorem C4_transitions_unconditional (a : BaseAgent) (s : AgentState) :
    (transitionState a s).state = s ∧
    (seerInit a).state = .Active ∧
    (seerActivate a).state = .Active ∧
    (seerProcess a).state = .Active ∧
    (seerSuspend a).state = .Suspended ∧
    (seerTerminate a).state = .Terminated :=
  ⟨rfl, rfl, rfl, rfl, rfl, rfl⟩

/-- C3: `execute_consensus` ignores `min_agreement` entirely — it delegates
to `execute_parallel` — and the result status is `Completed` even for an
unattainable agreement threshold of 2.0 (no fraction of agents can reach
it), where the claim requires `Failed`. -/
theorem C3_consensus_ignores_agreement :
    (∀ (task : Task) (selected : List Nat) (pool : List Agent) (ma : Rat),
        executeConsensus task selected pool ma = executeParallel task selected pool) ∧
    Except.map TaskResult.status
        (executeTask (.Mesh 6) [] consensusTask (.Consensus 2) consensusPool) =
      .ok .Completed ∧
    Except.map (fun r => r.agent_contributions.length)
        (executeTask (.Mesh 6) [] consensusTask (.Consensus 2) consensusPool) =
      .ok 1 :=
  ⟨fun _ _ _ _ => rfl, rfl, rfl⟩

/-- C8: every topology's `can_add_agent` capacity check is antitone in the
count — once false at count `n`, it is false at every count `m ≥ n`. -/
theorem C8_capacity_antitone (topo : SwarmTopology) (n m : Nat) (hnm : n ≤ m)
    (hfalse : canAddAgent topo n = false) : canAddAgent topo m = false := by
  cases topo <;> simp only [canAddAgent, decide_eq_false_iff_not] at * <;> omega

/-- Witness for C8: `Star {max_satellites: 3}` is full at count 4 and stays
full at count 7. -/
theorem C8_capacity_antitone_witness :
    canAddAgent (.Star 3) 4 = false ∧ (4 : Nat) ≤ 7 ∧
      canAddAgent (.Star 3) 7 = false :=
  ⟨by decide, by decide, C8_capacity_antitone (.Star 3) 4 7 (by decide) (by decide)⟩

/-- C9: the consensus branch of `select_agents` is unsafe when the capable
pool is empty or `max_agents = Some(0)`: the computed count is then 0, which
is even, and the parity adjustment computes `0 - 1` on a `usize` — negative
as a mathematical value, i.e. an underflow (debug builds panic; release
builds wrap to `2^64 - 1`). The adjustment is safe exactly when
`min(max_agents.unwrap_or(5), pool size) ≥ 1`. -/
theorem C9_consensus_count_underflow (ma : Option Nat) (poolLen : Nat) :
    (consensusCountInt ma poolLen < 0 ↔ min (ma.getD 5) poolLen = 0) ∧
    (min (ma.getD 5) poolLen = 0 ↔ poolLen = 0 ∨ ma = some 0) ∧
    usizeSub1 0 = USIZE - 1 := by
  refine ⟨?_, ?_, by decide⟩
  · unfold consensusCountInt
    by_cases h : min (ma.getD 5) poolLen % 2 = 0 <;> (simp [h]; try omega)
  · cases ma <;> (simp [Option.getD]; try omega)

/-- Helper: `find?` over `range n` returns the least index satisfying the
predicate, provided one below `n` exists. -/
theorem find?_range_eq_some (n : Nat) (p : Nat → Bool) (l : Nat)
    (hl : l < n) (hp : p l = true) (hmin : ∀ k, k < l → p k = false) :
    (List.range n).find? p = some l := by
  induction n with
  | zero => omega
  | succ n ih =>
      rw [List.range_succ, List.find?_append]
      rcases Nat.lt_or_ge l n with h | h
      · rw [ih h]
        rfl
      · have hln : l = n := by omega
        subst hln
        have hnone : (List.range l).find? p = none := by
          rw [List.find?_eq_none]
          intro x hx
          simp [hmin x (List.mem_range.mp hx)]
        rw [hnone]
        simp [List.find?, hp]

/-- Helper: characterization of the hierarchical target level. -/
theorem targetLevel_eq (levels apl : Nat) (existing : List (Nat × AgentPlacement))
    (l : Nat) (hl : l < levels) (hroom : levelCount existing l < apl)
    (hfull : ∀ k, k < l → apl ≤ levelCount existing k) :
    targetLevel levels apl existing = l := by
  unfold targetLevel
  rw [find?_range_eq_some levels _ l hl (by simpa using hroom)
    (fun k hk => by simpa using Nat.not_lt.mpr (hfull k hk))]
  rfl

/-- Helper: when the target level is positive and level `target - 1` is
nonempty, `findParent` returns the first existing agent at that level. -/
theorem findParent_exists (target : Nat) (existing : List (Nat × AgentPlacement))
    (hpos : 0 < target) (hcount : 0 < levelCount existing (target - 1)) :
    ∃ e ∈ existing, hierLevelOf e.2 = some (target - 1) ∧
      findParent target existing = some e.1 := by
  have hne : existing.filter
      (fun p => hierLevelOf p.2 = some (target - 1)) ≠ [] := by
    intro hnil
    unfold levelCount at hcount
    rw [hnil] at hcount
    simp at hcount
  obtain ⟨x, hx⟩ := List.exists_mem_of_ne_nil _ hne
  have hx' := List.mem_filter.mp hx
  have hsome : (existing.find?
      (fun p => hierLevelOf p.2 = some (target - 1))).isSome := by
    rw [List.find?_isSome]
    exact ⟨x, hx'.1, hx'.2⟩
  obtain ⟨e, he⟩ := Option.isSome_iff_exists.mp hsome
  refine ⟨e, List.mem_of_find?_eq_some he, by simpa using List.find?_some he, ?_⟩
  unfold findParent
  rw [if_pos hpos, he]
  rfl

/-- C7: for `Hierarchical {levels, agents_per_level}`, `calculate_placement`
assigns the new agent to the lowest-numbered level `l < levels` that still
has room (`levelCount < agents_per_level`), and whenever that level is
positive the parent is an existing agent whose placement sits at level
`l - 1`. -/
theorem C7_hierarchical_lowest_level (levels apl : Nat)
    (existing : List (Nat × AgentPlacement)) (l : Nat)
    (hl : l < levels) (hroom : levelCount existing l < apl)
    (hfull : ∀ k, k < l → apl ≤ levelCount existing k) :
    targetLevel levels apl existing = l ∧
    calculatePlacement (.Hierarchical levels apl) existing =
      .Hierarchical l (findParent l existing) [] ∧
    (0 < l → ∃ e ∈ existing, hierLevelOf e.2 = some (l - 1) ∧
      findParent l existing = some e.1) := by
  have ht := targetLevel_eq levels apl existing l hl hroom hfull
  refine ⟨ht, by simp [calculatePlacement, ht], fun hpos => ?_⟩
  apply findParent_exists l existing hpos
  have h1 := hfull (l - 1) (by omega)
  omega

/-- Witness for C7, Scenario C: spawning agents 1–5 in order into
`Hierarchical {levels: 3, agents_per_level: 4}` puts agents 1–4 at level 0,
and the fifth placement lands at level 1 with a parent drawn from level 0. -/
theorem C7_hierarchical_lowest_level_witness :
    ((scenarioCPlacements 4).map (fun e => hierLevelOf e.2) =
      [some 0, some 0, some 0, some 0]) ∧
    targetLevel 3 4 (scenarioCPlacements 4) = 1 ∧
    calculatePlacement (.Hierarchical 3 4) (scenarioCPlacements 4) =
      .Hierarchical 1 (findParent 1 (scenarioCPlacements 4)) [] ∧
    (∃ e ∈ scenarioCPlacements 4, hierLevelOf e.2 = some 0 ∧
      findParent 1 (scenarioCPlacements 4) = some e.1) := by
  have h := C7_hierarchical_lowest_level 3 4 (scenarioCPlacements 4) 1
    (by decide) (by decide)
    (fun k hk => by
      have hk0 : k = 0 := by omega
      subst hk0
      decide)
  exact ⟨by decide, h.1, h.2.1, by simpa using h.2.2 (by decide)⟩

/-- C5 counterexample: a handler that subscribes after an event is published
(but before the dispatch loop dequeues it) still receives the event — the
delivery snapshot is taken at dequeue time, not at publish time. -/
theorem C5_counterexample :
    (runBus { handlers := [], queue := [] }
        [.Publish (.NeuralFired 9), .Subscribe 7, .Dispatch]).2 =
      [(7, .NeuralFired 9)] := by
  decide

/-- Helper: counting a fixed-second-component pair in a paired-up map. -/
theorem count_map_pair (l : List Nat) (e : SystemEvent) (h : Nat) :
    (l.map (fun x => (x, e))).count (h, e) = l.count h := by
  induction l with
  | nil => rfl
  | cons a t ih => simp [List.count_cons, ih]

/-- C5 (amended): event delivery targets the subscribers registered at the
moment the dispatch loop dequeues the event: one dispatch iteration removes
the head event from the queue, leaves the handler list unchanged, and
delivers the event exactly once to every currently subscribed handler and to
nobody else — so a handler subscribing between publish and dispatch does
receive the event. -/
theorem C5_dispatch_time_snapshot (b : BusState) (e : SystemEvent)
    (rest : List SystemEvent) (h : Nat)
    (hq : b.queue = e :: rest) (hnd : b.handlers.Nodup) :
    (dispatchStep b).1.queue = rest ∧
    (dispatchStep b).1.handlers = b.handlers ∧
    (dispatchStep b).2.count (h, e) =
      (if h ∈ b.handlers then 1 else 0) := by
  unfold dispatchStep
  rw [hq]
  refine ⟨rfl, rfl, ?_⟩
  rw [count_map_pair]
  by_cases hm : h ∈ b.handlers
  · simp [hm, List.count_eq_one_of_mem hnd hm]
  · simp [hm, List.count_eq_zero_of_not_mem hm]

/-- Witness for C5 (amended): dispatching `SystemShutdown` to a bus with two
subscribed handlers delivers it exactly once to handler 7 and empties the
queue. -/
theorem C5_dispatch_time_snapshot_witness :
    (dispatchStep { handlers := [4, 7], queue := [.SystemShutdown] }).1.queue = [] ∧
    (dispatchStep { handlers := [4, 7], queue := [.SystemShutdown] }).2.count
        (7, SystemEvent.SystemShutdown) = 1 := by
  have h := C5_dispatch_time_snapshot
    { handlers := [4, 7], queue := [.SystemShutdown] }
    .SystemShutdown [] 7 rfl (by decide)
  refine ⟨h.1, ?_⟩
  rw [h.2.2]
  decide

/-- C6 counterexample: with two `Active` agents in the snapshot where the
first one's `process` fails, `process_all_agents` returns the error at once
and never invokes `process` on the second agent. -/
theorem C6_counterexample :
    processAllAgents regDemo = ([1], some processErrMsg) ∧
    (2 : Nat) ∉ (processAllAgents regDemo).1 ∧
    (∃ a ∈ regDemo, a.id = 2 ∧ a.state = .Active) := by
  decide

/-- Helper: under unique ids, `find?` by an element's id returns that
element. -/
theorem find?_id_eq_self (reg : List RegAgent) (a : RegAgent)
    (hnd : (reg.map (·.id)).Nodup) (ha : a ∈ reg) :
    reg.find? (fun x => x.id = a.id) = some a := by
  induction reg with
  | nil => cases ha
  | cons b t ih =>
      have hnd' : b.id ∉ t.map (·.id) ∧ (t.map (·.id)).Nodup := by
        rw [List.map_cons, List.nodup_cons] at hnd
        exact hnd
      by_cases hb : b.id = a.id
      · have hab : a = b := by
          rcases List.mem_cons.mp ha with hcase | hcase
          · exact hcase
          · exact absurd (hb ▸ List.mem_map_of_mem (·.id) hcase) hnd'.1
        subst hab
        exact List.find?_cons_of_pos _ (by simp)
      · rw [List.find?_cons_of_neg _ (by simpa using hb)]
        have ha' : a ∈ t := by
          rcases List.mem_cons.mp ha with hcase | hcase
          · exact absurd (by rw [hcase]) hb
          · exact hcase
        exact ih hnd'.2 ha'

/-- Helper: the `process_all_agents` loop walks a prefix of agents whose
`Active` members all succeed, accumulating exactly their ids. -/
theorem processAllLoop_ok_front (reg : List RegAgent) (pre : List RegAgent)
    (ids2 invoked : List Nat)
    (hfind : ∀ a ∈ pre, reg.find? (fun x => x.id = a.id) = some a)
    (hok : ∀ a ∈ pre, a.state = .Active → a.processOk = true) :
    processAllLoop reg (pre.map (·.id) ++ ids2) invoked =
      processAllLoop reg ids2
        (invoked ++ (pre.filter (fun a => a.state = .Active)).map (·.id)) := by
  induction pre generalizing invoked with
  | nil => simp
  | cons a t ih =>
      have hfa := hfind a (by simp)
      have hft : ∀ x ∈ t, reg.find? (fun y => y.id = x.id) = some x :=
        fun x hx => hfind x (by simp [hx])
      have hot : ∀ x ∈ t, x.state = .Active → x.processOk = true :=
        fun x hx => hok x (by simp [hx])
      simp only [List.map_cons, List.cons_append, processAllLoop, hfa,
        List.append_eq]
      by_cases hs : a.state = .Active
      · rw [if_pos hs, if_pos (hok a (by simp) hs), ih _ hft hot]
        simp [List.filter_cons, hs]
      · rw [if_neg hs, ih _ hft hot]
        simp [List.filter_cons, hs]

/-- C6 (amended): `process_all_agents` propagates the first failing `process`
call with `?`: it returns that error immediately, having invoked `process`
exactly on the `Active` agents preceding (and including) the failing one —
every remaining agent of the snapshot, `Active` or not, is skipped. -/
theorem C6_error_aborts_loop (pre : List RegAgent) (bad : RegAgent)
    (post : List RegAgent)
    (hnd : ((pre ++ bad :: post).map (·.id)).Nodup)
    (hok : ∀ a ∈ pre, a.state = .Active → a.processOk = true)
    (hbadActive : bad.state = .Active) (hbadFail : bad.processOk = false) :
    processAllAgents (pre ++ bad :: post) =
      ((pre.filter (fun a => a.state = .Active)).map (·.id) ++ [bad.id],
        some processErrMsg) := by
  unfold processAllAgents
  rw [List.map_append]
  rw [processAllLoop_ok_front (pre ++ bad :: post) pre ((bad :: post).map (·.id)) []
    (fun a ha => find?_id_eq_self _ a hnd (by simp [ha]))
    hok]
  have hfb : (pre ++ bad :: post).find? (fun x => x.id = bad.id) = some bad :=
    find?_id_eq_self _ bad hnd (by simp)
  simp only [List.map_cons, processAllLoop, hfb]
  rw [if_pos hbadActive, if_neg (by simp [hbadFail])]
  simp

/-- Witness for C6 (amended): registry `[(5, Active, ok), (6, Active, fail),
(7, Active, ok)]` yields invoked ids `[5, 6]` and the error — agent 7 is
never processed. -/
theorem C6_error_aborts_loop_witness :
    processAllAgents
        [{ id := 5, state := .Active, processOk := true },
         { id := 6, state := .Active, processOk := false },
         { id := 7, state := .Active, processOk := true }] =
      ([5, 6], some processErrMsg) := by
  have h := C6_error_aborts_loop
    [{ id := 5, state := .Active, processOk := true }]
    { id := 6, state := .Active, processOk := false }
    [{ id := 7, state := .Active, processOk := true }]
    (by decide) (by decide) (by decide) (by decide)
  simpa using h

/-- C10: `MessageBus::send` appends the message to the bounded history
before routing it, so a `Direct` message to an unregistered recipient
returns the not-found error while remaining recorded as the most recent
history entry (returned first by `get_history`); the history length never
exceeds `max_history` (the oldest entry is dropped first). -/
theorem C10_send_records_before_routing (bus : MessageBus)
    (sender recipient : Nat) (c : MessageContent)
    (hreg : recipient ∉ bus.channels)
    (hlen : bus.history.length ≤ bus.max_history)
    (hmax : 1 ≤ bus.max_history) :
    (sendMsg bus (.Direct sender recipient c)).2 =
      .error ("Agent " ++ toString recipient ++ " not found") ∧
    (sendMsg bus (.Direct sender recipient c)).1.history.length ≤
      bus.max_history ∧
    (getHistory (sendMsg bus (.Direct sender recipient c)).1 none).head? =
      some (.Direct sender recipient c) := by
  have hsend : sendMsg bus (.Direct sender recipient c) =
      (pushHistory bus (.Direct sender recipient c),
        .error ("Agent " ++ toString recipient ++ " not found")) := by
    simp only [sendMsg]
    have hch : (pushHistory bus (.Direct sender recipient c)).channels =
        bus.channels := rfl
    rw [hch, if_neg hreg]
  have hph : (pushHistory bus (.Direct sender recipient c)).history.length ≤
        bus.max_history ∧
      (pushHistory bus (.Direct sender recipient c)).history.getLast? =
        some (.Direct sender recipient c) := by
    simp only [pushHistory]
    by_cases hc : bus.max_history <
        (bus.history ++ [CoordMessage.Direct sender recipient c]).length
    · rw [if_pos hc]
      have hne : bus.history ≠ [] := by
        intro hnil
        rw [hnil] at hc
        simp at hc
        omega
      have hdrop : (bus.history ++ [CoordMessage.Direct sender recipient c]).drop 1 =
          bus.history.drop 1 ++ [CoordMessage.Direct sender recipient c] := by
        apply List.drop_append_of_le_length
        have := List.length_pos.mpr hne
        omega
      constructor
      · simp only [List.length_drop, List.length_append,
          List.length_singleton] at hc ⊢
        omega
      · rw [hdrop]
        simp
    · rw [if_neg hc]
      constructor
      · simp only [List.length_append, List.length_singleton] at hc ⊢
        omega
      · simp
  have hgh : getHistory (pushHistory bus (.Direct sender recipient c)) none =
      (pushHistory bus (.Direct sender recipient c)).history.reverse := by
    unfold getHistory
    rw [show ((none : Option Nat).getD
        (pushHistory bus (.Direct sender recipient c)).history.length) =
        (pushHistory bus (.Direct sender recipient c)).history.length from rfl]
    rw [← List.length_reverse, List.take_length]
  refine ⟨by rw [hsend], by rw [hsend]; exact hph.1, ?_⟩
  rw [hsend]
  rw [hgh, List.head?_reverse]
  exact hph.2

/-- Witness for C10: on a fresh bus (`max_history = 1000`, nobody
registered), a direct message to agent 2 errors yet is returned first by
`get_history`. -/
theorem C10_send_records_before_routing_witness :
    (sendMsg demoBus demoMsg).2 =
      .error ("Agent " ++ toString 2 ++ " not found") ∧
    (sendMsg demoBus demoMsg).1.history.length ≤ demoBus.max_history ∧
    (getHistory (sendMsg demoBus demoMsg).1 none).head? = some demoMsg := by
  have h := C10_send_records_before_routing demoBus 1 2 (.Custom "ping")
    (by decide) (by decide) (by decide)
  exact ⟨h.1, h.2.1, h.2.2⟩

end Amos
